import Mathlib

set_option maxRecDepth 4000

/-!
Verification development for the sqldef PostgreSQL adapter
(`src/adapter/postgres/postgres.go`).

The Go code is shallowly embedded: pure rendering functions become Lean
functions on `String`, catalog rows become structures, fallible scans
return `Except`, and the database side of each accessor is modelled as an
explicit snapshot argument (list of rows).  Go string primitives used by
the source (`strings.TrimSuffix`, `strings.Join`, `strings.Trim`,
`strconv.Atoi`, anchored regexes) are embedded as `List Char` operations
on `String.data`.
-/

namespace Sqldef

/-! ## Embedded Go string primitives -/

/-- `p.data` is a prefix of `s.data`; embeds Go `strings.HasPrefix s p`. -/
def strStartsWith (s p : String) : Bool :=
  List.isPrefixOf p.data s.data

/-- `p.data` is a suffix of `s.data`; embeds Go `strings.HasSuffix s p`. -/
def strEndsWith (s p : String) : Bool :=
  List.isPrefixOf p.data.reverse s.data.reverse

/-- Drop the first `n` characters; embeds Go slicing `s[n:]`. -/
def strDrop (s : String) (n : Nat) : String :=
  ⟨s.data.drop n⟩

/-- Drop the last `n` characters; embeds Go slicing `s[:len(s)-n]`. -/
def strDropRight (s : String) (n : Nat) : String :=
  ⟨s.data.take (s.data.length - n)⟩

/-- Embeds Go `strings.TrimSuffix(s, suffix)`: remove one occurrence of
`suffix` from the end of `s` when present, otherwise return `s`. -/
def trimSuffix (s suffix : String) : String :=
  if strEndsWith s suffix then strDropRight s suffix.data.length else s

/-- Embeds Go `strings.Join(elems, sep)`. -/
def goJoin (elems : List String) (sep : String) : String :=
  match elems with
  | [] => ""
  | x :: xs => xs.foldl (fun acc e => acc ++ sep ++ e) x

/-- Membership of a character in the Go cutset of a double quote and a
space, used by `strings.Trim(colName, cutset)` at source line 330. -/
def isQuoteOrSpace (c : Char) : Bool :=
  c = '"' || c = ' '

/-- Embeds Go `strings.Trim(s, cutset)` for the cutset consisting of the
double quote and the space: remove all leading and trailing characters of
the cutset. -/
def trimQuoteSpace (s : String) : String :=
  let l := s.data.dropWhile isQuoteOrSpace
  ⟨(l.reverse.dropWhile isQuoteOrSpace).reverse⟩

/-- Numeric value of a list of decimal digit characters. -/
def digitsToNat (l : List Char) : Nat :=
  l.foldl (fun acc c => acc * 10 + (c.toNat - Char.toNat '0')) 0

/-- Embeds Go `strconv.Atoi`: an optional sign followed by at least one
decimal digit and nothing else; any other shape is an error.  (Go
additionally range-checks against the machine int; catalog
character-length values are far below that bound, so the range check is
not modelled.) -/
def goAtoi (s : String) : Except String Int :=
  match s.data with
  | [] => .error "invalid syntax"
  | c :: rest =>
    let signDigits : Bool × List Char :=
      if c = '-' then (true, rest)
      else if c = '+' then (false, rest)
      else (false, c :: rest)
    if signDigits.2 = [] then .error "invalid syntax"
    else if signDigits.2.all Char.isDigit then
      .ok (if signDigits.1 then -(digitsToNat signDigits.2 : Int)
           else (digitsToNat signDigits.2 : Int))
    else .error "invalid syntax"

/-- Embeds `SplitTableName` (source lines 633-641): `strings.SplitN` on
the first dot; a bare name is put in the default schema `public`. -/
def breakOnDot : List Char → Option (List Char × List Char)
  | [] => none
  | c :: cs =>
    if c = '.' then some ([], cs)
    else
      match breakOnDot cs with
      | some (a, b) => some (c :: a, b)
      | none => none

def SplitTableName (table : String) : String × String :=
  match breakOnDot table.data with
  | some (s, t) => (⟨s⟩, ⟨t⟩)
  | none => ("public", table)

/-! ## The column model (`type column` in the source) -/

structure columnConstraint where
  definition : String
  name : String
  deriving DecidableEq, Repr

structure column where
  Name : String
  dataType : String
  Length : Int
  Nullable : Bool
  Default : String
  IsAutoIncrement : Bool
  IdentityGeneration : String
  Check : Option columnConstraint
  deriving DecidableEq, Repr

/-- Embeds `func (c *column) GetDataType() string` (source lines
227-255): integer family types become the serial family under the
auto-increment flag, the two zone-naive spellings are abbreviated, and
everything else passes through unchanged. -/
def column.GetDataType (c : column) : String :=
  match c.dataType with
  | "smallint" => if c.IsAutoIncrement then "smallserial" else c.dataType
  | "integer" => if c.IsAutoIncrement then "serial" else c.dataType
  | "bigint" => if c.IsAutoIncrement then "bigserial" else c.dataType
  | "timestamp without time zone" => "timestamp"
  | "time without time zone" => "time"
  | _ => c.dataType

/-- Spec-side canonical-type function, written from the words of the
claim: the three integer-family raw types with the auto-increment flag
set map to the three serial keywords, the two zone-qualified spellings
map to their abbreviations regardless of the flag, and every other raw
type string maps to itself. -/
def canonicalTypeSpec (raw : String) (auto : Bool) : String :=
  if auto && raw = "smallint" then "smallserial"
  else if auto && raw = "integer" then "serial"
  else if auto && raw = "bigint" then "bigserial"
  else if raw = "timestamp without time zone" then "timestamp"
  else if raw = "time without time zone" then "time"
  else raw

/-! ## The DDL assembler (`buildDumpTableDDL`, source lines 162-209) -/

/-- `const indent = "    "` (source line 16). -/
def indent : String := "    "

/-- The text appended for one column by the body of the column loop of
`buildDumpTableDDL` (source lines 170-185): quoted name, canonical type,
optional length, optional NOT NULL, optional DEFAULT (suppressed for
auto-increment columns), optional identity clause, optional inline check
constraint. -/
def buildColumnLine (col : column) : String :=
  "\"" ++ col.Name ++ "\" " ++ col.GetDataType
    ++ (if col.Length > 0 then "(" ++ toString col.Length ++ ")" else "")
    ++ (if col.Nullable then "" else " NOT NULL")
    ++ (if col.Default ≠ "" ∧ col.IsAutoIncrement = false
        then " DEFAULT " ++ col.Default else "")
    ++ (if col.IdentityGeneration ≠ ""
        then " GENERATED " ++ col.IdentityGeneration ++ " AS IDENTITY" else "")
    ++ (match col.Check with
        | some ch => " CONSTRAINT " ++ ch.name ++ " " ++ ch.definition
        | none => "")

/-- The column loop of `buildDumpTableDDL` (source lines 165-186): a
comma before every column but the first, then a newline, the indent and
the column's line.  The counter argument is the loop index `i`. -/
def renderColumns : Nat → List column → String
  | _, [] => ""
  | i, c :: cs =>
    (if i > 0 then "," else "") ++ "\n" ++ indent ++ buildColumnLine c
      ++ renderColumns (i + 1) cs

/-- The string held by `queryBuilder` at source line 208, before the
trailing-newline trim.  The two Go maps (`checkConstraints` and
`uniqueConstraints`) are passed as the sequences of key-value pairs in
the order Go's `range` happens to visit them, which Go leaves
unspecified. -/
def buildDumpRaw (table : String) (columns : List column)
    (pkeyCols indexDefs foreignDefs policyDefs : List String)
    (checkConstraints uniqueConstraints : List (String × String)) : String :=
  let s0 := "CREATE TABLE " ++ table ++ " (" ++ renderColumns 0 columns
  let s1 :=
    if pkeyCols.length > 0 then
      s0 ++ ",\n" ++ indent ++ "PRIMARY KEY (\"" ++ goJoin pkeyCols "\", \"" ++ "\")"
    else s0
  let s2 := checkConstraints.foldl
    (fun acc kv => acc ++ ",\n" ++ indent ++ "CONSTRAINT " ++ kv.1 ++ " " ++ kv.2) s1
  let s3 := s2 ++ "\n);\n"
  let s4 := indexDefs.foldl (fun acc v => acc ++ v ++ ";\n") s3
  let s5 := foreignDefs.foldl (fun acc v => acc ++ v ++ ";\n") s4
  let s6 := policyDefs.foldl (fun acc v => acc ++ v ++ ";\n") s5
  uniqueConstraints.foldl (fun acc kv => acc ++ kv.2 ++ ";\n") s6

/-- Embeds `buildDumpTableDDL` (source lines 162-209): the assembled
string with one trailing newline trimmed by `strings.TrimSuffix`. -/
def buildDumpTableDDL (table : String) (columns : List column)
    (pkeyCols indexDefs foreignDefs policyDefs : List String)
    (checkConstraints uniqueConstraints : List (String × String)) : String :=
  trimSuffix
    (buildDumpRaw table columns pkeyCols indexDefs foreignDefs policyDefs
      checkConstraints uniqueConstraints) "\n"

/-! ## Structured view of the assembled string -/

/-- The PRIMARY KEY clause (source lines 187-190), as the text it
contributes to the assembled string: empty when there is no primary-key
column. -/
def pkClause (pkeyCols : List String) : String :=
  if pkeyCols.length > 0 then
    ",\n" ++ indent ++ "PRIMARY KEY (\"" ++ goJoin pkeyCols "\", \"" ++ "\")"
  else ""

/-- The text contributed by the multi-column CONSTRAINT clauses (source
lines 191-194), one clause per key-value pair in iteration order. -/
def checksJoin : List (String × String) → String
  | [] => ""
  | kv :: rest => ",\n" ++ indent ++ "CONSTRAINT " ++ kv.1 ++ " " ++ kv.2 ++ checksJoin rest

/-- The text contributed by a list of standalone statements, each
suffixed with a semicolon and a newline (source lines 196-207). -/
def stmtsJoin : List String → String
  | [] => ""
  | v :: vs => v ++ ";\n" ++ stmtsJoin vs

/-- Comma-separated continuation of a column list: the text the column
loop appends for every column after the first. -/
def commaTail : List String → String
  | [] => ""
  | x :: xs => "," ++ x ++ commaTail xs

/-! ## Scanning catalog column rows (`getColumns`, source lines 257-352) -/

/-- One result row of the column query, as scanned at source line 319:
name, default, nullability, character length, data type, identity
generation, and the optional single-column check constraint. -/
structure rawColumnRow where
  colName : String
  colDefault : Option String
  isNullable : String
  maxLenStr : Option String
  dataType : String
  idGen : Option String
  checkName : Option String
  checkDefinition : Option String
  deriving DecidableEq, Repr

/-- The `column` value built by the loop body of `getColumns` (source
lines 316-349) from one scanned row and the already-converted length:
the name is trimmed of quotes and spaces, the default defaults to the
empty string, and the auto-increment flag is set iff the non-null
default expression has the sequence-advance prefix. -/
def mkColumn (r : rawColumnRow) (maxLen : Int) : column where
  Name := trimQuoteSpace r.colName
  dataType := r.dataType
  Length := maxLen
  Nullable := r.isNullable == "YES"
  Default := match r.colDefault with | some d => d | none => ""
  IsAutoIncrement :=
    match r.colDefault with
    | some d => strStartsWith d "nextval("
    | none => false
  IdentityGeneration := match r.idGen with | some g => g | none => ""
  Check :=
    match r.checkName, r.checkDefinition with
    | some n, some d => some ⟨d, n⟩
    | _, _ => none

/-- One iteration of the `getColumns` row loop including the
`strconv.Atoi` conversion of the character length (source lines
323-329): a non-null length that does not parse as an integer is an
error. -/
def scanColumn (r : rawColumnRow) : Except String column :=
  match r.maxLenStr with
  | none => .ok (mkColumn r 0)
  | some s =>
    match goAtoi s with
    | .error e => .error e
    | .ok n => .ok (mkColumn r n)

/-- The whole row loop of `getColumns`: rows are scanned in order and
the first failure aborts the call. -/
def getColumnsScan : List rawColumnRow → Except String (List column)
  | [] => .ok []
  | r :: rs =>
    match scanColumn r with
    | .error e => .error e
    | .ok c =>
      match getColumnsScan rs with
      | .error e => .error e
      | .ok cs => .ok (c :: cs)

/-! ## Decomposition of a rendered column line around its DEFAULT clause -/

/-- The DEFAULT clause of a rendered column line (source lines 177-179):
present only when the default expression is non-empty and the column is
not auto-increment. -/
def defaultClause (col : column) : String :=
  if col.Default ≠ "" ∧ col.IsAutoIncrement = false
  then " DEFAULT " ++ col.Default else ""

/-- The part of a rendered column line before the DEFAULT clause. -/
def colLineLead (col : column) : String :=
  "\"" ++ col.Name ++ "\" " ++ col.GetDataType
    ++ (if col.Length > 0 then "(" ++ toString col.Length ++ ")" else "")
    ++ (if col.Nullable then "" else " NOT NULL")

/-- The part of a rendered column line after the DEFAULT clause. -/
def colLineTail (col : column) : String :=
  (if col.IdentityGeneration ≠ ""
    then " GENERATED " ++ col.IdentityGeneration ++ " AS IDENTITY" else "")
    ++ (match col.Check with
        | some ch => " CONSTRAINT " ++ ch.name ++ " " ++ ch.definition
        | none => "")

/-! ## Row-level-security policies (`getPolicyDefs`, source lines 521-574) -/

/-- One row of the `pg_policies` catalog view, in the shape both policy
queries return (source lines 550-555): `qual` and `with_check` are
nullable. -/
structure pgPolicyRow where
  policyname : String
  permissive : String
  roles : String
  cmd : String
  qual : Option String
  withCheck : Option String
  deriving DecidableEq, Repr

/-- `queryPermissive` (source line 532). -/
def queryPermissive : String :=
  "SELECT policyname, permissive, roles, cmd, qual, with_check FROM pg_policies WHERE schemaname = $1 AND tablename = $2;"

/-- `queryNone` (source line 533): selects the literal empty string in
place of the `permissive` column. -/
def queryNone : String :=
  "SELECT policyname, \x27\x27, roles, cmd, qual, with_check FROM pg_policies WHERE schemaname = $1 AND tablename = $2;"

/-- The query selection of `getPolicyDefs` (source lines 535-541).  The
anchored regular expression `^9` matches a string iff it starts with the
character 9, so `r9.MatchString(version)` is embedded as a
string-prefix test. -/
def selectPolicyQuery (version : String) : String :=
  if strStartsWith version "9" then queryNone else queryPermissive

/-- Models the result rows of the two fixed policy query texts over a
`pg_policies` snapshot: the `queryNone` variant selects the literal
empty string in the permissive column, the `queryPermissive` variant
selects the stored value. -/
def runPolicyQuery (q : String) (snapshot : List pgPolicyRow) : List pgPolicyRow :=
  if q = queryNone then snapshot.map (fun r => { r with permissive := "" })
  else snapshot

/-- Embeds `policyRolesPrefixRegex.ReplaceAllString(roles, "")` (source
lines 522, 559): the anchored pattern matches exactly the one leading
opening brace when present. -/
def stripRolesOpenBrace (s : String) : String :=
  if strStartsWith s "\x7b" then strDrop s 1 else s

/-- Embeds `policyRolesSuffixRegex.ReplaceAllString(roles, "")` (source
lines 523, 560): the anchored pattern matches exactly the one trailing
closing brace when present. -/
def stripRolesCloseBrace (s : String) : String :=
  if strEndsWith s "\x7d" then strDropRight s 1 else s

/-- The roles value after both replacements, in source order. -/
def stripRoles (s : String) : String :=
  stripRolesCloseBrace (stripRolesOpenBrace s)

/-- Spec-side roles normalization, written from the words of the claim:
exactly one leading opening brace and one trailing closing brace are
removed, each only when present and at most one from each end. -/
def stripRolesSpec (s : String) : String :=
  let l1 := if s.data.head? = some '{' then s.data.tail else s.data
  ⟨if l1.getLast? = some '}' then l1.dropLast else l1⟩

/-- The statement built for one policy row by the loop body of
`getPolicyDefs` (source lines 556-571). -/
def renderPolicy (table : String) (row : pgPolicyRow) : String :=
  "CREATE POLICY " ++ row.policyname ++ " ON " ++ table ++ " AS "
    ++ row.permissive ++ " FOR " ++ row.cmd ++ " TO " ++ stripRoles row.roles
    ++ (match row.qual with | some q => " USING " ++ q | none => "")
    ++ (match row.withCheck with | some w => " WITH CHECK " ++ w | none => "")
    ++ ";"

/-- The version query text issued by `Version()` (source line 577). -/
def versionQuerySQL : String :=
  "SELECT name, setting, min_val, max_val FROM pg_settings WHERE name = \x27server_version_num\x27"

/-- A database round trip observable in a call trace. -/
inductive DbCall where
  | query : String → DbCall
  deriving DecidableEq, Repr

/-- The sequence of queries `getPolicyDefs` issues (source lines
527-543): one version query through `d.Version()`, then the selected
policy query — the version is fetched exactly once per call. -/
def getPolicyDefsCalls (version : String) : List DbCall :=
  [DbCall.query versionQuerySQL, DbCall.query (selectPolicyQuery version)]

/-- Embeds `getPolicyDefs` over a catalog snapshot: select the query by
the fetched version, run it, and render each returned row against the
bare table name produced by `SplitTableName`. -/
def getPolicyDefs (version tableArg : String) (snapshot : List pgPolicyRow) :
    List String :=
  (runPolicyQuery (selectPolicyQuery version) snapshot).map
    (renderPolicy (SplitTableName tableArg).2)

/-! ## Views (`Views`, source lines 63-93) -/

/-- Go `unicode.IsSpace` restricted to the ASCII range, which is all
that catalog view text contains; embeds the cutset of
`strings.TrimSpace` (source line 82). -/
def goIsSpace (c : Char) : Bool :=
  c = ' ' || c = '\t' || c = '\n' || c = '\x0b' || c = '\x0c' || c = '\r'

/-- Embeds `strings.TrimSpace(definition)` (source line 82). -/
def goTrimSpace (s : String) : String :=
  let l := s.data.dropWhile goIsSpace
  ⟨(l.reverse.dropWhile goIsSpace).reverse⟩

/-- Embeds `strings.ReplaceAll(definition, newline, "")` (source line
83). -/
def removeNewlines (s : String) : String :=
  ⟨s.data.filter (fun c => c != '\n')⟩

/-- Embeds `suffixSemicolon.ReplaceAllString(definition, "")` for the
anchored pattern of one semicolon at the end of the string (source lines
59, 84): removes exactly one trailing semicolon when present. -/
def stripOneTrailingSemicolon (s : String) : String :=
  if strEndsWith s ";" then strDropRight s 1 else s

/-- Helper for `collapseSpaces`: the flag records whether the previous
kept character position was inside a run of spaces. -/
def collapseSpacesAux : Bool → List Char → List Char
  | _, [] => []
  | prevSpace, c :: rest =>
    if c = ' ' then
      if prevSpace then collapseSpacesAux true rest
      else ' ' :: collapseSpacesAux true rest
    else c :: collapseSpacesAux false rest

/-- Embeds `spaces.ReplaceAllString(definition, " ")` for the pattern of
one or more spaces (source lines 60, 85): every maximal run of spaces
becomes a single space. -/
def collapseSpaces (s : String) : String :=
  ⟨collapseSpacesAux false s.data⟩

/-- The normalization pipeline applied to one view definition by the
`Views` row loop (source lines 82-85), in source order. -/
def normalizeViewDef (s : String) : String :=
  collapseSpaces (stripOneTrailingSemicolon (removeNewlines (goTrimSpace s)))

/-- The statement built for one view row (source lines 86-90). -/
def viewDDL (schema name definition : String) : String :=
  "CREATE VIEW " ++ schema ++ "." ++ name ++ " AS "
    ++ normalizeViewDef definition ++ ";"

/-- One row of the view query (source lines 78-79). -/
structure viewRow where
  schema : String
  name : String
  definition : String
  deriving DecidableEq, Repr

/-- Embeds the row loop of `Views` over a snapshot of the view query's
result rows. -/
def Views (rows : List viewRow) : List String :=
  rows.map (fun r => viewDDL r.schema r.name r.definition)

/-! ## Version and Triggers accessors -/

/-- One row of the `pg_settings` query of `Version()` (source lines
577-596). -/
structure pgSettingRow where
  name : String
  setting : String
  min_val : String
  max_val : String
  deriving DecidableEq, Repr

/-- A catalog snapshot: the database state visible to the accessors that
take no table argument. -/
structure PgCatalog where
  policies : List pgPolicyRow
  settings : List pgSettingRow
  views : List viewRow
  deriving Repr

/-- Embeds the row loop of `Version()` (source lines 589-597): the
variable holds the `setting` of the last row scanned and starts out as
the empty string. -/
def versionScan (rows : List pgSettingRow) : String :=
  rows.foldl (fun _ r => r.setting) ""

/-- Embeds `Version()` over a catalog snapshot: the scanned version and
a nil error. -/
def Version (db : PgCatalog) : String × Option String :=
  (versionScan db.settings, none)

/-- Embeds `func (d *PostgresDatabase) Triggers()` (source lines 95-97):
`return nil, nil` for every database state. -/
def Triggers (_db : PgCatalog) : List String × Option String :=
  ([], none)

/-- The queries `Triggers` issues: none — trigger definitions are never
queried. -/
def triggersCalls (_db : PgCatalog) : List DbCall :=
  []

/-! ## `DumpTableDDL` (source lines 130-160) -/

/-- Embeds `DumpTableDDL` over the results of its seven accessor calls,
in source call order: the first error is returned together with the
empty string, otherwise the assembled DDL with a nil error. -/
def DumpTableDDL (table : String)
    (colsRes : Except String (List column))
    (pkeyRes indexRes foreignRes policyRes : Except String (List String))
    (checkRes uniqueRes : Except String (List (String × String))) :
    String × Option String :=
  match colsRes with
  | .error e => ("", some e)
  | .ok cols =>
  match pkeyRes with
  | .error e => ("", some e)
  | .ok pkeyCols =>
  match indexRes with
  | .error e => ("", some e)
  | .ok indexDefs =>
  match foreignRes with
  | .error e => ("", some e)
  | .ok foreignDefs =>
  match policyRes with
  | .error e => ("", some e)
  | .ok policyDefs =>
  match checkRes with
  | .error e => ("", some e)
  | .ok checkConstraints =>
  match uniqueRes with
  | .error e => ("", some e)
  | .ok uniqueConstraints =>
    (buildDumpTableDDL table cols pkeyCols indexDefs foreignDefs policyDefs
      checkConstraints uniqueConstraints, none)

/-! # Theorems -/

/-! ## Basic facts about the embedded string primitives -/

theorem strData_append (a b : String) : (a ++ b).data = a.data ++ b.data := rfl

theorem strExt {a b : String} (h : a.data = b.data) : a = b := by
  cases a; cases b; exact congrArg String.mk h

theorem strAppend_assoc (a b c : String) : a ++ b ++ c = a ++ (b ++ c) :=
  strExt (by simp [strData_append])

theorem strAppend_empty (a : String) : a ++ "" = a :=
  strExt (by simp [strData_append])

theorem trimSuffix_append (t s : String) : trimSuffix (t ++ s) s = t := by
  unfold trimSuffix
  have h1 : strEndsWith (t ++ s) s = true := by
    simp [strEndsWith, strData_append, List.isPrefixOf_iff_prefix]
  rw [if_pos h1]
  unfold strDropRight
  apply strExt
  simp [strData_append, List.length_append, List.take_left]

theorem data_concat_getLast (t : String) (c : Char) :
    (t.data ++ [c]).getLast? = some c := by
  simp

/-! ## Fold lemmas for the assembler -/

theorem foldl_stmtsJoin (l : List String) :
    ∀ init : String,
      l.foldl (fun acc v => acc ++ v ++ ";\n") init = init ++ stmtsJoin l := by
  induction l with
  | nil => intro init; simp [stmtsJoin, strAppend_empty]
  | cons x xs ih =>
    intro init
    rw [List.foldl_cons, ih]
    simp only [stmtsJoin]
    simp [strAppend_assoc]

theorem foldl_checksJoin (l : List (String × String)) :
    ∀ init : String,
      l.foldl (fun acc kv => acc ++ ",\n" ++ indent ++ "CONSTRAINT " ++ kv.1 ++ " " ++ kv.2) init
        = init ++ checksJoin l := by
  induction l with
  | nil => intro init; simp [checksJoin, strAppend_empty]
  | cons x xs ih =>
    intro init
    rw [List.foldl_cons, ih]
    simp only [checksJoin]
    simp [strAppend_assoc]

theorem foldl_commaTail (l : List String) :
    ∀ init : String,
      l.foldl (fun acc e => acc ++ "," ++ e) init = init ++ commaTail l := by
  induction l with
  | nil => intro init; simp [commaTail, strAppend_empty]
  | cons x xs ih =>
    intro init
    rw [List.foldl_cons, ih]
    simp only [commaTail]
    simp [strAppend_assoc]

theorem renderColumns_pos (cs : List column) :
    ∀ i : Nat,
      renderColumns (i + 1) cs
        = commaTail (cs.map (fun c => "\n" ++ indent ++ buildColumnLine c)) := by
  induction cs with
  | nil => intro i; simp [renderColumns, commaTail]
  | cons c cs ih =>
    intro i
    simp only [renderColumns, List.map_cons, commaTail, ih, Nat.succ_pos, if_pos,
      strAppend_assoc]

theorem renderColumns_join (cols : List column) :
    renderColumns 0 cols
      = goJoin (cols.map (fun c => "\n" ++ indent ++ buildColumnLine c)) "," := by
  cases cols with
  | nil => rfl
  | cons c cs =>
    simp only [renderColumns, List.map_cons, goJoin, foldl_commaTail,
      renderColumns_pos]
    simp [strAppend_assoc]

theorem buildDumpRaw_structured (table : String) (columns : List column)
    (pkeyCols indexDefs foreignDefs policyDefs : List String)
    (checkConstraints uniqueConstraints : List (String × String)) :
    buildDumpRaw table columns pkeyCols indexDefs foreignDefs policyDefs
        checkConstraints uniqueConstraints
      = "CREATE TABLE " ++ table ++ " (" ++ renderColumns 0 columns
        ++ pkClause pkeyCols ++ checksJoin checkConstraints ++ "\n);\n"
        ++ stmtsJoin indexDefs ++ stmtsJoin foreignDefs ++ stmtsJoin policyDefs
        ++ stmtsJoin (uniqueConstraints.map Prod.snd) := by
  unfold buildDumpRaw pkClause
  rw [← List.foldl_map Prod.snd (fun acc v => acc ++ v ++ ";\n") uniqueConstraints]
  rw [foldl_stmtsJoin, foldl_stmtsJoin, foldl_stmtsJoin, foldl_stmtsJoin,
    foldl_checksJoin]
  by_cases h : pkeyCols.length > 0 <;> simp [h, strAppend_assoc, strAppend_empty]

theorem append_stmtsJoin_semi (l : List String) :
    ∀ t : String, ∃ u, (t ++ ";\n") ++ stmtsJoin l = u ++ ";\n" := by
  induction l with
  | nil => intro t; exact ⟨t, strAppend_empty _⟩
  | cons v vs ih =>
    intro t
    obtain ⟨u, hu⟩ := ih ((t ++ ";\n") ++ v)
    refine ⟨u, ?_⟩
    calc (t ++ ";\n") ++ stmtsJoin (v :: vs)
        = (((t ++ ";\n") ++ v) ++ ";\n") ++ stmtsJoin vs := by
          simp [stmtsJoin, strAppend_assoc]
      _ = u ++ ";\n" := hu

theorem exists_semi_append_stmtsJoin (l : List String) (X : String)
    (h : ∃ t, X = t ++ ";\n") : ∃ u, X ++ stmtsJoin l = u ++ ";\n" := by
  obtain ⟨t, rfl⟩ := h
  exact append_stmtsJoin_semi l t

theorem buildDumpRaw_semi (table : String) (columns : List column)
    (pkeyCols indexDefs foreignDefs policyDefs : List String)
    (checkConstraints uniqueConstraints : List (String × String)) :
    ∃ t, buildDumpRaw table columns pkeyCols indexDefs foreignDefs policyDefs
        checkConstraints uniqueConstraints = t ++ ";\n" := by
  rw [buildDumpRaw_structured]
  apply exists_semi_append_stmtsJoin
  apply exists_semi_append_stmtsJoin
  apply exists_semi_append_stmtsJoin
  apply exists_semi_append_stmtsJoin
  refine ⟨"CREATE TABLE " ++ table ++ " (" ++ renderColumns 0 columns
    ++ pkClause pkeyCols ++ checksJoin checkConstraints ++ "\n)", ?_⟩
  simp only [strAppend_assoc]
  congr 1

/-- C3: `buildDumpTableDDL` assembles its output in the fixed section
order — CREATE TABLE header with one indented, comma-separated line per
column in list order, then the PRIMARY KEY clause iff the primary-key
list is non-empty, then one CONSTRAINT clause per multi-column check
constraint, the closing, then one semicolon-suffixed statement per index
definition, foreign-key definition, policy definition and unique
constraint; exactly one trailing newline is trimmed and the final string
never ends with a newline character.  (Purity holds by construction:
the result is a function of the arguments alone.) -/
theorem buildDumpTableDDL_sections (table : String) (columns : List column)
    (pkeyCols indexDefs foreignDefs policyDefs : List String)
    (checkConstraints uniqueConstraints : List (String × String)) :
    buildDumpRaw table columns pkeyCols indexDefs foreignDefs policyDefs
        checkConstraints uniqueConstraints
      = "CREATE TABLE " ++ table ++ " (" ++ renderColumns 0 columns
        ++ pkClause pkeyCols ++ checksJoin checkConstraints ++ "\n);\n"
        ++ stmtsJoin indexDefs ++ stmtsJoin foreignDefs ++ stmtsJoin policyDefs
        ++ stmtsJoin (uniqueConstraints.map Prod.snd)
    ∧ renderColumns 0 columns
      = goJoin (columns.map (fun c => "\n" ++ indent ++ buildColumnLine c)) ","
    ∧ buildDumpTableDDL table columns pkeyCols indexDefs foreignDefs policyDefs
        checkConstraints uniqueConstraints ++ "\n"
      = buildDumpRaw table columns pkeyCols indexDefs foreignDefs policyDefs
          checkConstraints uniqueConstraints
    ∧ (buildDumpTableDDL table columns pkeyCols indexDefs foreignDefs policyDefs
        checkConstraints uniqueConstraints).data.getLast? = some ';'
    ∧ (buildDumpTableDDL table columns pkeyCols indexDefs foreignDefs policyDefs
        checkConstraints uniqueConstraints).data.getLast? ≠ some '\n' := by
  obtain ⟨t, ht⟩ := buildDumpRaw_semi table columns pkeyCols indexDefs
    foreignDefs policyDefs checkConstraints uniqueConstraints
  have hsplit : (t ++ ";") ++ "\n" = t ++ ";\n" := by
    rw [strAppend_assoc]
    rfl
  have hddl : buildDumpTableDDL table columns pkeyCols indexDefs foreignDefs
      policyDefs checkConstraints uniqueConstraints = t ++ ";" := by
    unfold buildDumpTableDDL
    rw [ht, ← hsplit, trimSuffix_append]
  refine ⟨buildDumpRaw_structured _ _ _ _ _ _ _ _, renderColumns_join _, ?_, ?_, ?_⟩
  · rw [hddl, ht, hsplit]
  · rw [hddl]
    have h2 : (t ++ ";").data = t.data ++ [';'] := by
      rw [strData_append]
    rw [h2, data_concat_getLast]
  · rw [hddl]
    have h2 : (t ++ ";").data = t.data ++ [';'] := by
      rw [strData_append]
    rw [h2, data_concat_getLast]
    simp

/-! ## Map iteration order and determinism (claim C1)

Go's `range` over a map visits entries in an unspecified (deliberately
randomized) order, so two runs over the same two-entry map may visit its
entries in different orders.  The embedding makes the visiting order an
explicit argument; two orders of the same map contents are permutations
of each other with no duplicate keys. -/

theorem perm_short_eq {α : Type} {l1 l2 : List α}
    (h : l1.Perm l2) (hl : l1.length ≤ 1) : l1 = l2 := by
  cases l1 with
  | nil =>
    have h2 := List.perm_nil.mp h.symm
    rw [h2]
  | cons x xs =>
    cases xs with
    | nil =>
      have h2 := List.perm_singleton.mp h.symm
      rw [h2]
    | cons y ys => simp at hl

/-- C1 counterexample: the same two-entry unique-constraint map, visited
in its two possible orders, yields two different output strings, so two
invocations of `buildDumpTableDDL` on the same input (same map contents)
are not guaranteed byte-identical. -/
theorem buildDump_mapOrder_counterexample :
    ([("a", "A"), ("b", "B")] : List (String × String)).Perm
        [("b", "B"), ("a", "A")]
    ∧ (([("a", "A"), ("b", "B")] : List (String × String)).map Prod.fst).Nodup
    ∧ buildDumpTableDDL "t" [] [] [] [] [] [] [("a", "A"), ("b", "B")]
      ≠ buildDumpTableDDL "t" [] [] [] [] [] [] [("b", "B"), ("a", "A")] :=
  ⟨by decide, by decide, by decide⟩

/-- C1 amended: rendering is deterministic in the table name, column
list, primary-key list and the three definition lists; for the two
constraint maps, two invocations on the same map contents are
byte-identical whenever each map holds at most one entry.  (With two or
more entries the CONSTRAINT-clause and trailing unique-constraint
statement order follows the unspecified map iteration order, see the
counterexample.) -/
theorem buildDump_deterministic_of_short_maps
    (table : String) (columns : List column)
    (pkeyCols indexDefs foreignDefs policyDefs : List String)
    (chk1 chk2 unq1 unq2 : List (String × String))
    (hc : chk1.Perm chk2) (hu : unq1.Perm unq2)
    (hc1 : chk1.length ≤ 1) (hu1 : unq1.length ≤ 1) :
    buildDumpTableDDL table columns pkeyCols indexDefs foreignDefs policyDefs
        chk1 unq1
      = buildDumpTableDDL table columns pkeyCols indexDefs foreignDefs
          policyDefs chk2 unq2 := by
  rw [perm_short_eq hc hc1, perm_short_eq hu hu1]

theorem buildDump_deterministic_of_short_maps_witness :
    buildDumpTableDDL "t" [] [] [] [] [] [("c", "x")] [("u", "y")]
      = buildDumpTableDDL "t" [] [] [] [] [] [("c", "x")] [("u", "y")] :=
  buildDump_deterministic_of_short_maps "t" [] [] [] [] []
    [("c", "x")] [("c", "x")] [("u", "y")] [("u", "y")]
    (List.Perm.refl _) (List.Perm.refl _) (by decide) (by decide)

/-! ## The DEFAULT clause of a rendered column (claim C2) -/

theorem buildColumnLine_decomp (col : column) :
    buildColumnLine col = colLineLead col ++ defaultClause col ++ colLineTail col := by
  unfold buildColumnLine colLineLead defaultClause colLineTail
  simp [strAppend_assoc]

theorem scanColumn_fields (r : rawColumnRow) (col : column)
    (h : scanColumn r = .ok col) :
    col.Default = (match r.colDefault with | some d => d | none => "")
    ∧ col.IsAutoIncrement
      = (match r.colDefault with
          | some d => strStartsWith d "nextval("
          | none => false) := by
  unfold scanColumn at h
  split at h
  · cases h
    exact ⟨rfl, rfl⟩
  · split at h
    · cases h
    · cases h
      exact ⟨rfl, rfl⟩

/-- C2: for every column produced by the `getColumns` row scan, if the
catalog default expression begins with `nextval(` the column is marked
auto-increment and its rendered line carries no DEFAULT clause; if the
default is present, non-empty and not `nextval(`-prefixed, the rendered
line contains that expression verbatim after ` DEFAULT `. -/
theorem scanColumn_default_rendering (r : rawColumnRow) (col : column)
    (h : scanColumn r = .ok col) :
    ((∃ d, r.colDefault = some d ∧ strStartsWith d "nextval(" = true) →
      col.IsAutoIncrement = true ∧ defaultClause col = ""
        ∧ buildColumnLine col = colLineLead col ++ colLineTail col)
    ∧ (∀ d, r.colDefault = some d → strStartsWith d "nextval(" = false →
        d ≠ "" →
      col.IsAutoIncrement = false ∧ defaultClause col = " DEFAULT " ++ d
        ∧ ∃ lead tail,
            buildColumnLine col = lead ++ (" DEFAULT " ++ d) ++ tail) := by
  obtain ⟨hdef, hauto⟩ := scanColumn_fields r col h
  constructor
  · rintro ⟨d, hd, hnv⟩
    rw [hd] at hdef hauto
    dsimp only at hdef hauto
    have hA : col.IsAutoIncrement = true := by rw [hauto, hnv]
    have hD : defaultClause col = "" := by
      unfold defaultClause
      rw [if_neg]
      rintro ⟨-, hfalse⟩
      rw [hA] at hfalse
      cases hfalse
    refine ⟨hA, hD, ?_⟩
    rw [buildColumnLine_decomp, hD, strAppend_empty]
  · intro d hd hnv hne
    rw [hd] at hdef hauto
    dsimp only at hdef hauto
    have hA : col.IsAutoIncrement = false := by rw [hauto, hnv]
    have hD : defaultClause col = " DEFAULT " ++ d := by
      unfold defaultClause
      rw [if_pos ⟨by rw [hdef]; exact hne, hA⟩, hdef]
    exact ⟨hA, hD, colLineLead col, colLineTail col, by
      rw [buildColumnLine_decomp, hD]⟩

theorem scanColumn_default_rendering_witness :
    defaultClause
        (mkColumn ⟨"id", some "nextval(users_id_seq)", "NO", none, "integer",
          none, none, none⟩ 0) = ""
    ∧ defaultClause
        (mkColumn ⟨"n", some "42", "YES", none, "integer",
          none, none, none⟩ 0) = " DEFAULT " ++ "42" := by
  constructor
  · exact ((scanColumn_default_rendering
      ⟨"id", some "nextval(users_id_seq)", "NO", none, "integer", none, none, none⟩
      _ rfl).1 ⟨_, rfl, by decide⟩).2.1
  · exact ((scanColumn_default_rendering
      ⟨"n", some "42", "YES", none, "integer", none, none, none⟩
      _ rfl).2 "42" rfl (by decide) (by decide)).2.1

/-! ## The canonical type mapping (claim C4) -/

/-- C4: `column.GetDataType` agrees with the claim's canonical-type
mapping: smallint/integer/bigint with the auto-increment flag become
smallserial/serial/bigserial, the two `without time zone` spellings are
abbreviated regardless of the flag, and every other raw type string is
returned unchanged. -/
theorem getDataType_eq_canonicalTypeSpec (c : column) :
    c.GetDataType = canonicalTypeSpec c.dataType c.IsAutoIncrement := by
  unfold column.GetDataType canonicalTypeSpec
  cases h : c.IsAutoIncrement <;>
    rcases c with ⟨_, ty, _, _, _, _, _, _⟩ <;> simp_all <;> split <;> simp_all

/-! ## Version-sensitive policy query selection (claim C5) -/

/-- C5: `getPolicyDefs` issues exactly one version query per call; a
version string beginning with 9 selects the variant that hard-codes an
empty permissiveness value, so every rendered policy carries the empty
permissiveness token, while any other version selects the variant that
reads the real permissive column. -/
theorem getPolicyDefs_version_selection (version tableArg : String)
    (snapshot : List pgPolicyRow) :
    (getPolicyDefsCalls version).count (DbCall.query versionQuerySQL) = 1
    ∧ (strStartsWith version "9" = true →
        selectPolicyQuery version = queryNone
        ∧ getPolicyDefs version tableArg snapshot
          = snapshot.map (fun r =>
              renderPolicy (SplitTableName tableArg).2 { r with permissive := "" }))
    ∧ (strStartsWith version "9" = false →
        selectPolicyQuery version = queryPermissive
        ∧ getPolicyDefs version tableArg snapshot
          = snapshot.map (renderPolicy (SplitTableName tableArg).2)) := by
  have hne : ¬ (queryPermissive = queryNone) := by decide
  have hqn : queryNone ≠ versionQuerySQL := by decide
  have hqp : queryPermissive ≠ versionQuerySQL := by decide
  have hcases : selectPolicyQuery version = queryNone
      ∨ selectPolicyQuery version = queryPermissive := by
    unfold selectPolicyQuery
    by_cases h : strStartsWith version "9" = true
    · rw [if_pos h]; exact Or.inl rfl
    · rw [if_neg h]; exact Or.inr rfl
  refine ⟨?_, ?_, ?_⟩
  · have e2 : (DbCall.query (selectPolicyQuery version)
        == DbCall.query versionQuerySQL) = false := by
      rw [beq_eq_false_iff_ne]
      intro hc
      injection hc with hs
      rcases hcases with hq | hq <;> rw [hq] at hs
      · exact hqn hs
      · exact hqp hs
    unfold getPolicyDefsCalls
    rw [List.count_cons, List.count_cons, List.count_nil, e2, beq_self_eq_true]
    simp
  · intro h
    have hq : selectPolicyQuery version = queryNone := by
      unfold selectPolicyQuery
      rw [if_pos h]
    refine ⟨hq, ?_⟩
    unfold getPolicyDefs runPolicyQuery
    rw [hq, if_pos rfl, List.map_map]
    rfl
  · intro h
    have hq : selectPolicyQuery version = queryPermissive := by
      unfold selectPolicyQuery
      rw [if_neg]
      rw [h]
      exact Bool.false_ne_true
    refine ⟨hq, ?_⟩
    unfold getPolicyDefs runPolicyQuery
    rw [hq, if_neg hne]

theorem getPolicyDefs_version_selection_witness :
    selectPolicyQuery "90624" = queryNone
    ∧ selectPolicyQuery "130005" = queryPermissive := by
  constructor
  · exact ((getPolicyDefs_version_selection "90624" "public.t" []).2.1
      (by decide)).1
  · exact ((getPolicyDefs_version_selection "130005" "public.t" []).2.2
      (by decide)).1

/-! ## Policy rendering (claim C6) -/

theorem isPrefixOf_singleton_iff (c : Char) (l : List Char) :
    List.isPrefixOf [c] l = true ↔ l.head? = some c := by
  cases l with
  | nil =>
    constructor
    · intro h
      rw [List.isPrefixOf_cons_nil] at h
      cases h
    · intro h
      cases h
  | cons x xs =>
    rw [List.isPrefixOf_cons₂]
    constructor
    · intro h
      have hx : c = x := by
        have h2 := (Bool.and_eq_true _ _).mp h
        exact beq_iff_eq.mp h2.1
      rw [hx]
      rfl
    · intro h
      have hx : x = c := by
        have h2 : some x = some c := h
        injection h2
      rw [hx]
      have ht : List.isPrefixOf ([] : List Char) xs = true := by
        rw [List.isPrefixOf_nil_left]
      rw [ht]
      simp

theorem stripRolesOpenBrace_data (s : String) :
    (stripRolesOpenBrace s).data
      = if s.data.head? = some '{' then s.data.tail else s.data := by
  unfold stripRolesOpenBrace strStartsWith strDrop
  by_cases h : s.data.head? = some '{'
  · have hp : List.isPrefixOf ("\x7b" : String).data s.data = true := by
      rw [show ("\x7b" : String).data = ['{'] from rfl, isPrefixOf_singleton_iff]
      exact h
    rw [if_pos h, if_pos hp]
    simp [List.drop_one]
  · have hp : ¬ (List.isPrefixOf ("\x7b" : String).data s.data = true) := by
      rw [show ("\x7b" : String).data = ['{'] from rfl, isPrefixOf_singleton_iff]
      exact h
    rw [if_neg h, if_neg hp]

theorem stripRolesCloseBrace_data (s : String) :
    (stripRolesCloseBrace s).data
      = if s.data.getLast? = some '}' then s.data.dropLast else s.data := by
  unfold stripRolesCloseBrace strEndsWith strDropRight
  by_cases h : s.data.getLast? = some '}'
  · have hp : List.isPrefixOf ("\x7d" : String).data.reverse s.data.reverse = true := by
      rw [show ("\x7d" : String).data.reverse = ['}'] from rfl,
        isPrefixOf_singleton_iff, List.head?_reverse]
      exact h
    rw [if_pos h, if_pos hp]
    exact (List.dropLast_eq_take _).symm
  · have hp : ¬ (List.isPrefixOf ("\x7d" : String).data.reverse s.data.reverse = true) := by
      rw [show ("\x7d" : String).data.reverse = ['}'] from rfl,
        isPrefixOf_singleton_iff, List.head?_reverse]
      exact h
    rw [if_neg h, if_neg hp]

theorem stripRoles_eq_spec (s : String) : stripRoles s = stripRolesSpec s := by
  apply strExt
  unfold stripRoles stripRolesSpec
  rw [stripRolesCloseBrace_data, stripRolesOpenBrace_data]

/-- C6: every policy row is rendered as CREATE POLICY name ON table AS
permissive FOR cmd TO roles, with the roles value losing exactly one
leading opening brace and one trailing closing brace (each only when
present), followed by the USING clause iff the qual is non-null, the
WITH CHECK clause iff the with-check expression is non-null, and a
final semicolon. -/
theorem renderPolicy_spec (table : String) (row : pgPolicyRow) :
    renderPolicy table row
      = "CREATE POLICY " ++ row.policyname ++ " ON " ++ table ++ " AS "
        ++ row.permissive ++ " FOR " ++ row.cmd ++ " TO " ++ stripRolesSpec row.roles
        ++ (match row.qual with | some q => " USING " ++ q | none => "")
        ++ (match row.withCheck with | some w => " WITH CHECK " ++ w | none => "")
        ++ ";" := by
  unfold renderPolicy
  rw [stripRoles_eq_spec]

/-! ## The Triggers accessor (claim C9) -/

/-- C9: `Triggers` returns the empty list and a nil error for every
database state, and issues no query at all. -/
theorem triggers_nil (db : PgCatalog) :
    Triggers db = ([], none) ∧ triggersCalls db = [] :=
  ⟨rfl, rfl⟩

/-! ## The Version accessor (claim C10) -/

theorem versionScan_getLast (rows : List pgSettingRow) :
    ∀ (init : String) (last : pgSettingRow), rows.getLast? = some last →
      rows.foldl (fun _ r => r.setting) init = last.setting := by
  induction rows with
  | nil => intro init last h; cases h
  | cons r rest ih =>
    intro init last h
    cases rest with
    | nil =>
      simp [List.getLast?] at h
      subst h
      rfl
    | cons r2 rest2 =>
      rw [List.foldl_cons]
      apply ih
      rw [List.getLast?_cons_cons] at h
      exact h

/-- C10: when the version query returns zero rows, the scanned version
is the empty string (and `Version` reports no error); the empty string
does not start with 9, so `getPolicyDefs` selects the variant reading
the real permissive column; in general the scanned version is the
`setting` of the last row. -/
theorem version_empty_and_last :
    versionScan [] = ""
    ∧ Version ⟨[], [], []⟩ = ("", none)
    ∧ selectPolicyQuery (versionScan []) = queryPermissive
    ∧ ∀ (rows : List pgSettingRow) (last : pgSettingRow),
        rows.getLast? = some last → versionScan rows = last.setting := by
  refine ⟨rfl, rfl, by decide, ?_⟩
  intro rows last h
  exact versionScan_getLast rows "" last h

theorem version_empty_and_last_witness :
    versionScan [⟨"server_version_num", "90624", "90624", "90624"⟩,
      ⟨"server_version_num", "130005", "130005", "130005"⟩] = "130005" :=
  version_empty_and_last.2.2.2
    [⟨"server_version_num", "90624", "90624", "90624"⟩,
      ⟨"server_version_num", "130005", "130005", "130005"⟩]
    ⟨"server_version_num", "130005", "130005", "130005"⟩ (by simp)

/-! ## View rendering (claim C7) -/

theorem collapseSpacesAux_subset (l : List Char) :
    ∀ (b : Bool) (c : Char), c ∈ collapseSpacesAux b l → c ∈ l := by
  induction l with
  | nil => intro b c hc; simp [collapseSpacesAux] at hc
  | cons x xs ih =>
    intro b c hc
    simp only [collapseSpacesAux] at hc
    split_ifs at hc with hx hb
    · exact List.mem_cons_of_mem x (ih true c hc)
    · rcases List.mem_cons.mp hc with h1 | h2
      · rw [h1, hx]
        exact List.mem_cons_self _ _
      · exact List.mem_cons_of_mem x (ih true c h2)
    · rcases List.mem_cons.mp hc with h1 | h2
      · rw [h1]
        exact List.mem_cons_self _ _
      · exact List.mem_cons_of_mem x (ih false c h2)

theorem normalizeViewDef_no_newline (s : String) :
    '\n' ∉ (normalizeViewDef s).data := by
  intro hmem
  unfold normalizeViewDef collapseSpaces at hmem
  have h2 := collapseSpacesAux_subset _ false '\n' hmem
  have h3 : '\n' ∈ (removeNewlines (goTrimSpace s)).data := by
    unfold stripOneTrailingSemicolon at h2
    by_cases hc : strEndsWith (removeNewlines (goTrimSpace s)) ";" = true
    · rw [if_pos hc] at h2
      unfold strDropRight at h2
      exact List.take_subset _ _ h2
    · rw [if_neg hc] at h2
      exact h2
  unfold removeNewlines at h3
  have h4 := (List.mem_filter.mp h3).2
  simp at h4

theorem viewDDL_data (schema name defn : String) :
    (viewDDL schema name defn).data
      = ("CREATE VIEW " ++ schema ++ "." ++ name ++ " AS "
          ++ normalizeViewDef defn).data ++ [';'] := by
  unfold viewDDL
  rw [strData_append]

/-- C7 counterexample: a view definition with an internal newline that
ends in two semicolons still satisfies the claim's premise (it contains
internal newlines and ends with a trailing semicolon), but the emitted
statement ends with two semicolons, because the anchored replacement
strips exactly one. -/
theorem views_semicolon_counterexample :
    ('\n' ∈ "SELECT 1\n;;".data ∧ "SELECT 1\n;;".data.getLast? = some ';')
    ∧ viewDDL "public" "v" "SELECT 1\n;;" = "CREATE VIEW public.v AS SELECT 1;;"
    ∧ ¬ ((viewDDL "public" "v" "SELECT 1\n;;").data.getLast? = some ';'
        ∧ (viewDDL "public" "v" "SELECT 1\n;;").data.dropLast.getLast? ≠ some ';') := by
  refine ⟨⟨by decide, by decide⟩, by decide, ?_⟩
  intro hcontra
  exact hcontra.2 (by decide)

/-- C7 amended: every view row is emitted as CREATE VIEW schema.name AS
body with a semicolon appended, where the body is the definition
trimmed, with newlines removed, one trailing semicolon stripped and
space runs collapsed; the body never contains a newline, the whole
statement contains no newline provided the schema and view name do not,
and the statement ends with exactly one trailing semicolon provided the
normalized body does not itself still end with a semicolon (which
happens only when the definition ended with two or more). -/
theorem views_normalization (schema name defn : String) :
    viewDDL schema name defn
      = "CREATE VIEW " ++ schema ++ "." ++ name ++ " AS "
        ++ normalizeViewDef defn ++ ";"
    ∧ '\n' ∉ (normalizeViewDef defn).data
    ∧ ('\n' ∉ schema.data → '\n' ∉ name.data →
        '\n' ∉ (viewDDL schema name defn).data)
    ∧ ((normalizeViewDef defn).data.getLast? ≠ some ';' →
        (viewDDL schema name defn).data.getLast? = some ';'
        ∧ (viewDDL schema name defn).data.dropLast.getLast? ≠ some ';') := by
  refine ⟨rfl, normalizeViewDef_no_newline defn, ?_, ?_⟩
  · intro hs hn hmem
    simp only [viewDDL, strData_append, List.mem_append] at hmem
    rcases hmem with ((((((h | h) | h) | h) | h) | h) | h)
    · exact absurd h (by decide)
    · exact hs h
    · exact absurd h (by decide)
    · exact hn h
    · exact absurd h (by decide)
    · exact normalizeViewDef_no_newline defn h
    · exact absurd h (by decide)
  · intro hlast
    constructor
    · rw [viewDDL_data]
      exact data_concat_getLast _ _
    · rw [viewDDL_data, List.dropLast_concat, strData_append]
      cases hb : (normalizeViewDef defn).data with
      | nil =>
        rw [List.append_nil, strData_append,
          List.getLast?_append_of_ne_nil _ (by decide)]
        decide
      | cons c cs =>
        rw [List.getLast?_append_of_ne_nil _ (by simp), ← hb]
        exact hlast

theorem views_normalization_witness :
    viewDDL "public" "v2" "SELECT  a,\n b FROM t;"
      = "CREATE VIEW public.v2 AS SELECT a, b FROM t;"
    ∧ '\n' ∉ (viewDDL "public" "v2" "SELECT  a,\n b FROM t;").data
    ∧ (viewDDL "public" "v2" "SELECT  a,\n b FROM t;").data.getLast? = some ';'
    ∧ (viewDDL "public" "v2" "SELECT  a,\n b FROM t;").data.dropLast.getLast?
        ≠ some ';' := by
  have h := views_normalization "public" "v2" "SELECT  a,\n b FROM t;"
  exact ⟨by decide, h.2.2.1 (by decide) (by decide),
    (h.2.2.2 (by decide)).1, (h.2.2.2 (by decide)).2⟩

/-! ## All-or-nothing table dumping (claim C8) -/

/-- C8: `DumpTableDDL` is all-or-nothing: if any of the seven accessor
results is an error, the function returns the empty string together with
an error and no partially rendered DDL; and a character-length value
that does not parse as an integer makes the column scan — and hence the
first accessor — fail. -/
theorem dumpTableDDL_all_or_nothing (table : String)
    (colsRes : Except String (List column))
    (pkeyRes indexRes foreignRes policyRes : Except String (List String))
    (checkRes uniqueRes : Except String (List (String × String))) :
    (((∃ e, colsRes = .error e) ∨ (∃ e, pkeyRes = .error e)
      ∨ (∃ e, indexRes = .error e) ∨ (∃ e, foreignRes = .error e)
      ∨ (∃ e, policyRes = .error e) ∨ (∃ e, checkRes = .error e)
      ∨ (∃ e, uniqueRes = .error e)) →
      ∃ e, DumpTableDDL table colsRes pkeyRes indexRes foreignRes policyRes
        checkRes uniqueRes = ("", some e))
    ∧ ∀ (rows : List rawColumnRow),
        (∃ r ∈ rows, ∃ s, r.maxLenStr = some s ∧ ∃ e2, goAtoi s = .error e2) →
        ∃ e, getColumnsScan rows = .error e := by
  constructor
  · intro hdisj
    rcases colsRes with e | cols
    · exact ⟨e, rfl⟩
    rcases pkeyRes with e | pkey
    · exact ⟨e, rfl⟩
    rcases indexRes with e | idx
    · exact ⟨e, rfl⟩
    rcases foreignRes with e | fks
    · exact ⟨e, rfl⟩
    rcases policyRes with e | pols
    · exact ⟨e, rfl⟩
    rcases checkRes with e | chks
    · exact ⟨e, rfl⟩
    rcases uniqueRes with e | unqs
    · exact ⟨e, rfl⟩
    exfalso
    rcases hdisj with ⟨e, he⟩ | ⟨e, he⟩ | ⟨e, he⟩ | ⟨e, he⟩ | ⟨e, he⟩
      | ⟨e, he⟩ | ⟨e, he⟩ <;> cases he
  · intro rows
    induction rows with
    | nil =>
      rintro ⟨r, hr, -⟩
      cases hr
    | cons r rest ih =>
      rintro ⟨r2, hmem, s, hs, e2, he2⟩
      rcases List.mem_cons.mp hmem with heq | hmem2
      · subst heq
        refine ⟨e2, ?_⟩
        simp only [getColumnsScan, scanColumn, hs, he2]
      · obtain ⟨e, he⟩ := ih ⟨r2, hmem2, s, hs, e2, he2⟩
        cases hsc : scanColumn r with
        | error e3 => exact ⟨e3, by simp only [getColumnsScan, hsc]⟩
        | ok c => exact ⟨e, by simp only [getColumnsScan, hsc, he]⟩

theorem dumpTableDDL_all_or_nothing_witness :
    (∃ e, DumpTableDDL "t" (.error "boom") (.ok []) (.ok []) (.ok []) (.ok [])
      (.ok []) (.ok []) = ("", some e))
    ∧ ∃ e, getColumnsScan
        [⟨"c", none, "YES", some "12abc", "text", none, none, none⟩]
          = .error e := by
  constructor
  · exact (dumpTableDDL_all_or_nothing "t" (.error "boom") (.ok []) (.ok [])
      (.ok []) (.ok []) (.ok []) (.ok [])).1 (Or.inl ⟨"boom", rfl⟩)
  · exact (dumpTableDDL_all_or_nothing "t" (.ok []) (.ok []) (.ok []) (.ok [])
      (.ok []) (.ok []) (.ok [])).2
      [⟨"c", none, "YES", some "12abc", "text", none, none, none⟩]
      ⟨⟨"c", none, "YES", some "12abc", "text", none, none, none⟩, by simp,
        "12abc", rfl, "invalid syntax", rfl⟩

end Sqldef
